import Mathlib

/-!
# link-shortner: the mapping store and its HTTP handlers

A shallow embedding of `main.go`.

* A Go `string` is a sequence of bytes, so it is a `List (Fin 256)`; slicing
  `s[3:]` is `List.drop 3`, with the run-time bounds check made explicit.
* The package-level variable `urlStore` (a `map[string]string`) is threaded
  through every handler as an explicit `Store`.
* `rand.Intn(len(charset))` is an oracle: a handler receives the stream
  `rnd : Nat → Nat` whose `i`-th element is the value returned by the `i`-th
  call made while serving the request. The contract of `rand.Intn(62)` is
  `rnd i < 62`; it appears as a hypothesis wherever it is needed.
* A run-time panic (index or slice out of range, `make` with a negative length
  or one above the allocation limit) is the `none` result of a function or the
  `panicked` response of a handler.
* A handler answer records the call made on the `http.ResponseWriter`; for
  `http.Redirect` the `Location` header that the library derives from the
  target is `redirectLocation`.
* The handlers are sequential functions `Store → Request → Store × Response`.
-/

namespace LinkShortner

/-! ## Go strings -/

/-- One byte of a Go string. -/
abbrev Byte := Fin 256

/-- A Go string is an immutable sequence of bytes. -/
abbrev GoString := List Byte

/-- An ASCII string literal of the source, as the bytes of the Go string. -/
def lit (s : String) : GoString := s.data.map (fun c => Fin.ofNat c.toNat)

/-! ## Data model -/

/-- The struct `ShortURL` (the JSON answer of `shortenHandler`). -/
structure ShortURL where
  ID : GoString
  Original : GoString
  Short : GoString
deriving DecidableEq, Repr

/-- The struct `ShortenRequest` (the JSON body of a shorten request). -/
structure ShortenRequest where
  URL : GoString
deriving DecidableEq, Repr

/-- The type of `urlStore`: a `map[string]string`, kept as an association list
with at most one entry per key (an invariant `Store.set` maintains). -/
abbrev Store := List (GoString × GoString)

/-- The lookup `v, exists := m[k]`: `some v` when `exists`, `none` otherwise. -/
def Store.get : Store → GoString → Option GoString
  | [], _ => none
  | (k', v) :: rest, k => if k' = k then some v else Store.get rest k

/-- The assignment `m[k] = v`: replaces the value of an existing key, adds the
key otherwise. -/
def Store.set : Store → GoString → GoString → Store
  | [], k, v => [(k, v)]
  | (k', v') :: rest, k, v =>
    if k' = k then (k, v) :: rest else (k', v') :: Store.set rest k v

/-- The initial value of `urlStore`: `make(map[string]string)`. -/
def urlStore : Store := []

/-- The package-level variable `baseURL`. -/
def baseURL : GoString := lit "http://localhost:8080/"

/-! ## net/http constants -/

def MethodGet : GoString := lit "GET"
def MethodPost : GoString := lit "POST"
def StatusMovedPermanently : Nat := 301
def StatusSeeOther : Nat := 303
def StatusBadRequest : Nat := 400
def StatusNotFound : Nat := 404
def StatusMethodNotAllowed : Nat := 405

/-- What a handler reads of `*http.Request`. -/
structure Request where
  /-- The field `r.Method`. -/
  Method : GoString
  /-- The field `r.URL.Path`. -/
  Path : GoString
  /-- The outcome of `json.NewDecoder(r.Body).Decode(&req)`: `none` when it
  returns an error, `some req` otherwise. -/
  Body : Option ShortenRequest
  /-- The method `r.FormValue(key)`. -/
  FormValue : GoString → GoString

/-- What a handler does with its `http.ResponseWriter`: one constructor per
way the source answers. -/
inductive Response where
  /-- The call `http.Error(w, msg, code)`. -/
  | error (msg : GoString) (code : Nat)
  /-- The call `http.NotFound(w, r)`. -/
  | notFound
  /-- The call `http.Redirect(w, r, url, code)`. -/
  | redirect (url : GoString) (code : Nat)
  /-- Content-Type `application/json` and `json.NewEncoder(w).Encode(resp)`. -/
  | json (resp : ShortURL)
  /-- Content-Type `text/html` and the static form page of `homeHandler`. -/
  | homePage
  /-- Content-Type `text/html` and `fmt.Fprintf(w, tmpl, a, b, c)` with the
  result template of `shortenFormHandler`; the three arguments are kept, the
  static template text is not. -/
  | resultPage (a b c : GoString)
  /-- The handler panicked before writing an answer. -/
  | panicked
deriving DecidableEq, Repr

/-! ## generateShortID -/

/-- The constant `charset` of `generateShortID`. -/
def charset : GoString :=
  lit "abcdefghijklmnopqrstuvwxyzABCDEFGHIJKLMNOPQRSTUVWXYZ0123456789"

/-- The constant `maxAlloc` of the Go runtime on 64-bit Linux (`1 << 48`):
`make([]byte, n)` panics with "makeslice: len out of range" when `n` bytes
exceed it. It is below `1 << 63`, so every length that passes the check is a
value of the Go type `int`. -/
def maxAlloc : Int := 2 ^ 48

/-- The function `generateShortID(length)`.

`b := make([]byte, length)` panics for a negative length and for a length above
`maxAlloc`; an allocation within the limit is taken to succeed (running out of
memory is a fatal error of the process, not a result of the function). The loop
`for i := range b` visits `0, ..., length-1` and stores
`charset[rand.Intn(len(charset))]` in `b[i]`, where the indexing panics when
the index is out of range. `rnd i` is the value of the `i`-th `rand.Intn`
call. -/
def generateShortID (length : Int) (rnd : Nat → Nat) : Option GoString :=
  if length < 0 ∨ maxAlloc < length then none
  else
    (List.range length.toNat).foldlM
      (fun b i => (charset[rnd i]?).map (fun c => b.set i c))
      (List.replicate length.toNat (0 : Byte))

/-! ## Handlers -/

/-- The handler `homeHandler`. -/
def homeHandler (s : Store) (r : Request) : Store × Response :=
  if r.Path ≠ lit "/" then (s, .notFound)
  else (s, .homePage)

/-- The handler `shortenFormHandler`. -/
def shortenFormHandler (s : Store) (r : Request) (rnd : Nat → Nat) :
    Store × Response :=
  if r.Method ≠ MethodPost then (s, .redirect (lit "/") StatusSeeOther)
  else
    let originalURL := r.FormValue (lit "url")
    if originalURL = lit "" then (s, .redirect (lit "/") StatusSeeOther)
    else
      match generateShortID 6 rnd with
      | none => (s, .panicked)
      | some shortID =>
        let shortURL := baseURL ++ lit "s/" ++ shortID
        (s.set shortID originalURL, .resultPage originalURL shortURL shortURL)

/-- The handler `shortenHandler`. -/
def shortenHandler (s : Store) (r : Request) (rnd : Nat → Nat) :
    Store × Response :=
  if r.Method ≠ MethodPost then
    (s, .error (lit "Method not allowed") StatusMethodNotAllowed)
  else
    match r.Body with
    | none => (s, .error (lit "Invalid request body") StatusBadRequest)
    | some req =>
      if req.URL = lit "" then
        (s, .error (lit "URL is required") StatusBadRequest)
      else
        match generateShortID 6 rnd with
        | none => (s, .panicked)
        | some shortID =>
          (s.set shortID req.URL,
            .json { ID := shortID, Original := req.URL,
                    Short := baseURL ++ lit "s/" ++ shortID })

/-- The handler `redirectHandler`. The slice `r.URL.Path[len("/s/"):]` panics
when the path is shorter than `len("/s/")`. -/
def redirectHandler (s : Store) (r : Request) : Store × Response :=
  if r.Method ≠ MethodGet then
    (s, .error (lit "Method not allowed") StatusMethodNotAllowed)
  else if r.Path.length < (lit "/s/").length then (s, .panicked)
  else
    let shortID := r.Path.drop (lit "/s/").length
    if shortID = lit "" then (s, .error (lit "Not found") StatusNotFound)
    else
      match s.get shortID with
      | none => (s, .error (lit "Short URL not found") StatusNotFound)
      | some originalURL => (s, .redirect originalURL StatusMovedPermanently)

/-- The four handlers registered in `main`. -/
inductive Handler where
  | home | shorten | shortenForm | redirect
deriving DecidableEq, Repr

/-- One request served by one of the registered handlers. -/
def serve (h : Handler) (s : Store) (r : Request) (rnd : Nat → Nat) :
    Store × Response :=
  match h with
  | .home => homeHandler s r
  | .shorten => shortenHandler s r rnd
  | .shortenForm => shortenFormHandler s r rnd
  | .redirect => redirectHandler s r

/-- The store states the running server can be in: the initial empty map, and
the state after any request served by any handler with draws that respect the
contract of `rand.Intn`. -/
inductive Reachable : Store → Prop where
  | init : Reachable urlStore
  | step {s : Store} (h : Handler) (r : Request) (rnd : Nat → Nat) :
      Reachable s → (∀ i, rnd i < charset.length) →
      Reachable (serve h s r rnd).1

/-- The identifier a response hands back to the client of a create request: the
`ID` of the JSON answer of `shortenHandler`, or the identifier that follows
`baseURL + "s/"` in the short URL of the result page of `shortenFormHandler`. -/
def Response.issued : Response → Option GoString
  | .json resp => some resp.ID
  | .resultPage _ b _ => some (b.drop (baseURL ++ lit "s/").length)
  | _ => none

/-- The bytes of `[a-zA-Z0-9]`. -/
def isAlnum (b : Byte) : Prop :=
  (97 ≤ b.val ∧ b.val ≤ 122) ∨ (65 ≤ b.val ∧ b.val ≤ 90) ∨ (48 ≤ b.val ∧ b.val ≤ 57)

instance (b : Byte) : Decidable (isAlnum b) := by
  unfold isAlnum; infer_instance

/-- A GET request for `path`. -/
def getRequest (path : GoString) : Request :=
  { Method := MethodGet, Path := path, Body := none, FormValue := fun _ => [] }

/-- A POST request to the JSON API whose body decodes to `{"url": u}`. -/
def jsonRequest (u : GoString) : Request :=
  { Method := MethodPost, Path := lit "/shorten", Body := some { URL := u },
    FormValue := fun _ => [] }

/-- A POST request of the HTML form whose `url` field is `u`. -/
def formRequest (u : GoString) : Request :=
  { Method := MethodPost, Path := lit "/shorten-form", Body := none,
    FormValue := fun k => if k = lit "url" then u else [] }

/-! ## net/http.Redirect

The handlers hand their redirect target to `http.Redirect` of the Go standard
library, which computes the `Location` header from it. The definitions of this
section follow `net/http` (`Redirect`, `hexEscapeNonASCII`), `net/url`
(`Parse`) and `path` (`Clean`, `Split`) as far as the header depends on them. -/

/-- The part of `s` before the first byte `sep` and the part after it, as
`strings.Cut(s, sep)` returns them; `none` for the second part when `sep` does
not occur. -/
def cutByte (sep : Byte) : GoString → GoString × Option GoString
  | [] => ([], none)
  | c :: rest =>
    if c = sep then ([], some rest)
    else ((c :: (cutByte sep rest).1), (cutByte sep rest).2)

/-- The function `stringContainsCTLByte` of net/url. -/
def stringContainsCTLByte (s : GoString) : Bool :=
  s.any (fun b => decide (b.val < 32 ∨ b.val = 127))

/-- The function `ishex` of net/url. -/
def ishex (c : Byte) : Bool :=
  decide ((48 ≤ c.val ∧ c.val ≤ 57) ∨ (97 ≤ c.val ∧ c.val ≤ 102) ∨
    (65 ≤ c.val ∧ c.val ≤ 70))

/-- Whether `unescape(s, mode)` of net/url returns an error, for the modes of a
path, a fragment and a user name or password: it does when a byte `%` is not
followed by two hexadecimal digits. `pending` is the number of hexadecimal
digits still owed to the last `%`. -/
def unescapeFails : Nat → GoString → Bool
  | 0, [] => false
  | _ + 1, [] => true
  | 0, c :: rest => unescapeFails (if c = 37 then 2 else 0) rest
  | k + 1, c :: rest => if ishex c then unescapeFails k rest else true

/-- Whether `getScheme(rawURL)` of net/url returns the empty scheme and no
error. It returns a non-empty scheme, or an error, when the first byte that is
not a letter, or not a digit, `+`, `-` or `.` after the first position, is a
colon. `first` tells that the scan is at index 0. -/
def getSchemeEmpty : Bool → GoString → Bool
  | _, [] => true
  | first, c :: rest =>
    if (97 ≤ c.val ∧ c.val ≤ 122) ∨ (65 ≤ c.val ∧ c.val ≤ 90) then
      getSchemeEmpty false rest
    else if (48 ≤ c.val ∧ c.val ≤ 57) ∨ c = 43 ∨ c = 45 ∨ c = 46 then
      if first then true else getSchemeEmpty false rest
    else if c = 58 then false
    else true

/-- The function `validUserinfo` of net/url. -/
def validUserinfo (s : GoString) : Bool :=
  s.all (fun r =>
    decide ((65 ≤ r.val ∧ r.val ≤ 90) ∨ (97 ≤ r.val ∧ r.val ≤ 122) ∨
      (48 ≤ r.val ∧ r.val ≤ 57) ∨ r ∈ lit "-._:~!$&()*+,;=%@" ∨ r = 39))

/-- The part of `s` after the last byte `sep` (the whole of `s` when `sep` does
not occur), and the part before it when it occurs. -/
def cutLastByte (sep : Byte) (s : GoString) : Option GoString × GoString :=
  match cutByte sep s.reverse with
  | (after, some before) => (some before.reverse, after.reverse)
  | (after, none) => (none, after.reverse)

/-- Whether `parseAuthority(authority)` of net/url succeeds with an empty host.
The host is what follows the last `@`; a non-empty one gives a non-empty host
or an error. With an empty host, the user information before the last `@` has
to be valid and to unescape. -/
def authorityEmptyHost (authority : GoString) : Bool :=
  match cutLastByte 64 authority with
  | (none, host) => decide (host = [])
  | (some userinfo, host) =>
    decide (host = []) && validUserinfo userinfo &&
      (match cutByte 58 userinfo with
       | (_, none) => !unescapeFails 0 userinfo
       | (username, some password) =>
         !unescapeFails 0 username && !unescapeFails 0 password)

/-- Whether `u, err := url.Parse(url)` gives `err == nil`, `u.Scheme == ""` and
`u.Host == ""`: the test under which `http.Redirect` treats `url` as relative.
`Parse` cuts the fragment off, rejects control bytes, reads the scheme, cuts the
query off, rejects a colon in the first segment of a relative path, parses the
authority after a leading `//` (but not `///`), and unescapes the path and then
the fragment. -/
def parsesRelative (url : GoString) : Bool :=
  let u := (cutByte 35 url).1
  let frag := ((cutByte 35 url).2).getD []
  if stringContainsCTLByte u then false
  else if !getSchemeEmpty true u then false
  else
    let rest := (cutByte 63 u).1
    if rest.head? ≠ some 47 ∧ (58 : Byte) ∈ (cutByte 47 rest).1 then false
    else
      let pathOk :=
        if (rest.take 2 = lit "//") ∧ ¬ (rest.take 3 = lit "///") then
          authorityEmptyHost (cutByte 47 (rest.drop 2)).1 &&
            !unescapeFails 0 (match (cutByte 47 (rest.drop 2)).2 with
              | none => []
              | some tail => 47 :: tail)
        else !unescapeFails 0 rest
      pathOk && (decide (frag = []) || !unescapeFails 0 frag)

/-- The directory that `path.Split(p)` returns: `p` up to and including its
last slash, empty when it has none. -/
def pathSplitDir (p : GoString) : GoString :=
  match cutLastByte 47 p with
  | (some before, _) => before ++ [47]
  | (none, _) => []

/-- The elements of a path between its slashes. -/
def pathElements : GoString → List GoString
  | [] => [[]]
  | c :: rest =>
    if c = 47 then [] :: pathElements rest
    else
      match pathElements rest with
      | [] => [[c]]
      | e :: es => (c :: e) :: es

/-- The loop of `path.Clean`: empty and `.` elements are skipped, `..` removes
the last kept element, or is kept itself in a path that is not rooted and has
nothing to remove; `ups` counts the kept `..` and `kept` holds the other kept
elements, last one first. -/
def pathCleanLoop (rooted : Bool) : List GoString → Nat → List GoString →
    Nat × List GoString
  | [], ups, kept => (ups, kept)
  | e :: es, ups, kept =>
    if e = [] ∨ e = lit "." then pathCleanLoop rooted es ups kept
    else if e = lit ".." then
      match kept with
      | _ :: kept' => pathCleanLoop rooted es ups kept'
      | [] => pathCleanLoop rooted es (if rooted then ups else ups + 1) []
    else pathCleanLoop rooted es ups (e :: kept)

/-- The function `path.Clean`. -/
def pathClean (p : GoString) : GoString :=
  if p = [] then lit "."
  else
    let rooted := decide (p.head? = some 47)
    let out := pathCleanLoop rooted (pathElements p) 0 []
    let elems := List.replicate out.1 (lit "..") ++ out.2.reverse
    if rooted then 47 :: (lit "/").intercalate elems
    else if elems = [] then lit "."
    else (lit "/").intercalate elems

/-- A hexadecimal digit in lower case, as `strconv.AppendInt(b, v, 16)` writes
it. -/
def hexDigit (n : Nat) : Byte :=
  if n < 10 then Fin.ofNat (48 + n) else Fin.ofNat (87 + n)

/-- The function `hexEscapeNonASCII` of net/http: every byte from `0x80` on
becomes `%` and its two hexadecimal digits. -/
def hexEscapeNonASCII (s : GoString) : GoString :=
  s.flatMap (fun b => if 128 ≤ b.val then [37, hexDigit (b.val / 16), hexDigit (b.val % 16)]
    else [b])

/-- The value that `http.Redirect(w, r, url, code)` sets the `Location` header
to, for a request whose `r.URL.Path` is `oldpath`. A `url` that parses without
scheme and host is made absolute against the directory of the request path
unless it starts with a slash, its part before the first `?` is cleaned with
`path.Clean`, keeping a trailing slash, and the query is put back; then bytes
outside ASCII are escaped. -/
def redirectLocation (oldpath url : GoString) : GoString :=
  hexEscapeNonASCII
    (if parsesRelative url then
      let oldpath := if oldpath = [] then lit "/" else oldpath
      let url := if url = [] ∨ url.head? ≠ some 47 then pathSplitDir oldpath ++ url else url
      let query := match (cutByte 63 url).2 with
        | none => []
        | some q => 63 :: q
      let url := (cutByte 63 url).1
      let trailing := decide (url.getLast? = some 47)
      let url := pathClean url
      let url := if trailing ∧ url.getLast? ≠ some 47 then url ++ lit "/" else url
      url ++ query
    else url)

/-- The `Location` header of the answer to the request `r`, when the answer is a
call of `http.Redirect`. -/
def Response.location (r : Request) : Response → Option GoString
  | .redirect url _ => some (redirectLocation r.Path url)
  | _ => none

/-! ## Closed forms used in the proofs -/

/-- The identifier the draws `rnd` select: position `i` holds the character of
`charset` at index `rnd i`. -/
def idOf (rnd : Nat → Nat) (n : Nat) : GoString :=
  (List.range n).map (fun i => charset.getD (rnd i) 0)

/-- Draws that select a given string: position `i` draws the index in `charset`
of the `i`-th byte. -/
def drawsFor (s : GoString) : Nat → Nat :=
  fun i => if i < s.length then charset.indexOf (s.getD i 0) else 0

/-- The draws of one call of `generateShortID(6)` as a function on `Nat`. -/
def drawsOf (d : Fin 6 → Fin 62) : Nat → Nat :=
  fun i => if h : i < 6 then (d ⟨i, h⟩).val else 0

/-! ## The embedding on concrete inputs -/

theorem generateShortID_run_identity :
    generateShortID 6 (fun i => i) = some (lit "abcdef") := by decide

theorem generateShortID_run_classes :
    generateShortID 3 (fun i => 26 * i + 9) = some (lit "jJ9") := by decide

theorem generateShortID_run_out_of_range :
    generateShortID 2 (fun _ => 62) = none := by decide

theorem generateShortID_run_negative :
    generateShortID (-1) (fun _ => 0) = none := by decide

theorem shortenFormHandler_run :
    shortenFormHandler urlStore (formRequest (lit "https://example.com/page"))
        (fun i => 10 * i)
      = ([(lit "akuEOY", lit "https://example.com/page")],
          .resultPage (lit "https://example.com/page")
            (lit "http://localhost:8080/s/akuEOY")
            (lit "http://localhost:8080/s/akuEOY")) := by decide

/-! ## Lemmas on the store -/

theorem Store.get_set_self (s : Store) (k v : GoString) :
    (s.set k v).get k = some v := by
  induction s with
  | nil => simp [Store.set, Store.get]
  | cons p rest ih =>
    obtain ⟨k', v'⟩ := p
    by_cases h : k' = k
    · simp [Store.set, Store.get, h]
    · simp [Store.set, Store.get, h, ih]

theorem Store.get_set_of_ne (s : Store) (k v k₀ : GoString) (hk : k₀ ≠ k) :
    (s.set k v).get k₀ = s.get k₀ := by
  induction s with
  | nil => simp [Store.set, Store.get, Ne.symm hk]
  | cons p rest ih =>
    obtain ⟨k', v'⟩ := p
    by_cases h : k' = k
    · subst h
      simp [Store.set, Store.get, Ne.symm hk]
    · by_cases h0 : k' = k₀
      · subst h0
        simp [Store.set, Store.get, h]
      · simp [Store.set, Store.get, h, h0, ih]

/-! ## Lemmas on generateShortID -/

theorem charset_length : charset.length = 62 := by decide

theorem charset_nodup : charset.Nodup := by decide

set_option maxRecDepth 20000 in
theorem charset_alnum : ∀ c ∈ charset, isAlnum c := by decide

theorem alnum_mem_charset : ∀ b : Byte, isAlnum b → b ∈ charset := by
  rintro ⟨v, hv⟩ h
  simp only [isAlnum] at h
  have e : (⟨v, hv⟩ : Byte) = Fin.ofNat v := by
    apply Fin.ext
    simp [Fin.ofNat, Nat.mod_eq_of_lt hv]
  rw [e]
  clear e hv
  rcases h with ⟨h1, h2⟩ | ⟨h1, h2⟩ | ⟨h1, h2⟩ <;> interval_cases v <;> decide

theorem idOf_length (rnd : Nat → Nat) (n : Nat) : (idOf rnd n).length = n := by
  simp [idOf]

theorem idOf_succ (rnd : Nat → Nat) (n : Nat) :
    idOf rnd (n + 1) = idOf rnd n ++ [charset.getD (rnd n) 0] := by
  simp [idOf, List.range_succ]

/-- Loop invariant of `generateShortID`: after `k` iterations the buffer holds
the `k` selected characters followed by the untouched zero bytes. -/
theorem generateShortID_loop (rnd : Nat → Nat) (N : Nat) :
    ∀ k, k ≤ N → (∀ i, i < k → rnd i < 62) →
      (List.range k).foldlM
        (fun b i => (charset[rnd i]?).map (fun c => List.set b i c))
        (List.replicate N (0 : Byte))
      = some (idOf rnd k ++ List.replicate (N - k) 0) := by
  intro k
  induction k with
  | zero => intro _ _; simp [idOf]
  | succ k ih =>
    intro hk hr
    have hlt : rnd k < charset.length := by
      rw [charset_length]; exact hr k (Nat.lt_succ_self k)
    rw [List.range_succ, List.foldlM_append,
      ih (Nat.le_of_succ_le hk) (fun i hi => hr i (Nat.lt_succ_of_lt hi))]
    have hrep : List.replicate (N - k) (0 : Byte)
        = 0 :: List.replicate (N - (k + 1)) 0 := by
      have : N - k = (N - (k + 1)) + 1 := by omega
      rw [this, List.replicate_succ]
    simp only [List.foldlM_cons, List.foldlM_nil, Option.some_bind,
      List.getElem?_eq_getElem hlt, Option.map_some', Option.bind_eq_bind, bind_pure]
    rw [hrep, idOf_succ]
    have hl : (idOf rnd k).length = k := idOf_length rnd k
    congr 1
    rw [List.set_append_right _ _ (by omega)]
    simp [hl, List.getElem?_eq_getElem hlt]

theorem generateShortID_eq (n : Nat) (rnd : Nat → Nat) (hn : (n : Int) ≤ maxAlloc)
    (h : ∀ i, i < n → rnd i < 62) :
    generateShortID (n : Int) rnd = some (idOf rnd n) := by
  unfold generateShortID
  have hc : ¬ ((n : Int) < 0 ∨ maxAlloc < (n : Int)) := by omega
  rw [if_neg hc, Int.toNat_ofNat, generateShortID_loop rnd n n (Nat.le_refl n) h]
  simp

theorem generateShortID_six (rnd : Nat → Nat) (h : ∀ i, i < 6 → rnd i < 62) :
    generateShortID 6 rnd = some (idOf rnd 6) :=
  generateShortID_eq 6 rnd (by decide) h

theorem idOf_alnum (rnd : Nat → Nat) (n : Nat) (h : ∀ i, i < n → rnd i < 62) :
    ∀ c ∈ idOf rnd n, isAlnum c := by
  intro c hc
  simp only [idOf, List.mem_map, List.mem_range] at hc
  obtain ⟨i, hi, rfl⟩ := hc
  have hlt : rnd i < charset.length := by rw [charset_length]; exact h i hi
  rw [List.getD_eq_getElem _ _ hlt]
  exact charset_alnum _ (List.getElem_mem hlt)

/-! ## Lemmas on the handlers -/

theorem lit_empty : lit "" = [] := rfl

theorem lit_s_length : (lit "/s/").length = 3 := rfl

theorem issued_prefix_length : (baseURL ++ lit "s/").length = 24 := by decide

theorem shortenHandler_create (s : Store) (r : Request) (rnd : Nat → Nat)
    (u : GoString) (hm : r.Method = MethodPost) (hb : r.Body = some ⟨u⟩)
    (hu : u ≠ []) (hr : ∀ i, i < 6 → rnd i < 62) :
    shortenHandler s r rnd
      = (s.set (idOf rnd 6) u,
          .json ⟨idOf rnd 6, u, baseURL ++ lit "s/" ++ idOf rnd 6⟩) := by
  have hg : generateShortID 6 rnd = some (idOf rnd 6) := generateShortID_six rnd hr
  simp [shortenHandler, hm, hb, lit_empty, hu, hg]

theorem shortenFormHandler_create (s : Store) (r : Request) (rnd : Nat → Nat)
    (u : GoString) (hm : r.Method = MethodPost) (hb : r.FormValue (lit "url") = u)
    (hu : u ≠ []) (hr : ∀ i, i < 6 → rnd i < 62) :
    shortenFormHandler s r rnd
      = (s.set (idOf rnd 6) u,
          .resultPage u (baseURL ++ lit "s/" ++ idOf rnd 6)
            (baseURL ++ lit "s/" ++ idOf rnd 6)) := by
  have hg : generateShortID 6 rnd = some (idOf rnd 6) := generateShortID_six rnd hr
  simp [shortenFormHandler, hm, hb, lit_empty, hu, hg]

theorem issued_resultPage (a c id : GoString) :
    (Response.resultPage a (baseURL ++ lit "s/" ++ id) c).issued = some id := by
  simp [Response.issued]

theorem redirectHandler_get (s : Store) (g : Request) (hg : g.Method = MethodGet)
    (hp : 3 ≤ g.Path.length) :
    redirectHandler s g
      = (s, if g.Path.drop 3 = [] then .error (lit "Not found") StatusNotFound
            else match s.get (g.Path.drop 3) with
              | none => .error (lit "Short URL not found") StatusNotFound
              | some u => .redirect u StatusMovedPermanently) := by
  have hlt : ¬ g.Path.length < 3 := by omega
  simp only [redirectHandler, hg, lit_s_length, lit_empty, ne_eq, not_true_eq_false,
    if_false, hlt]
  by_cases h : g.Path.drop 3 = []
  · simp [h]
  · simp only [h, if_false]
    cases s.get (g.Path.drop 3) <;> rfl

theorem redirectHandler_fst (s : Store) (r : Request) :
    (redirectHandler s r).1 = s := by
  unfold redirectHandler
  split
  · rfl
  · split
    · rfl
    · simp only
      split
      · rfl
      · split <;> rfl

theorem idOf_ne_nil (rnd : Nat → Nat) : idOf rnd 6 ≠ [] := by
  intro h
  have := idOf_length rnd 6
  rw [h] at this
  simp at this

theorem redirectHandler_resolve (s : Store) (g : Request) (id : GoString)
    (hg : g.Method = MethodGet) (hp : g.Path = lit "/s/" ++ id) :
    redirectHandler s g
      = (s, if id = [] then .error (lit "Not found") StatusNotFound
            else match s.get id with
              | none => .error (lit "Short URL not found") StatusNotFound
              | some u => .redirect u StatusMovedPermanently) := by
  have hd : g.Path.drop 3 = id := by rw [hp]; rfl
  have hl : 3 ≤ g.Path.length := by rw [hp]; simp [lit_s_length]
  rw [redirectHandler_get s g hg hl, hd]

/-! ## Round trip -/

theorem hexEscapeNonASCII_ascii (s : GoString) (h : ∀ b ∈ s, b.val < 128) :
    hexEscapeNonASCII s = s := by
  induction s with
  | nil => rfl
  | cons c rest ih =>
    have hc : ¬ 128 ≤ c.val := by
      have := h c (List.mem_cons_self c rest)
      omega
    have hrest := ih (fun b hb => h b (List.mem_cons_of_mem c hb))
    unfold hexEscapeNonASCII at hrest ⊢
    simp [List.flatMap_cons, hc, hrest]

theorem redirectLocation_of_not_relative (oldpath url : GoString)
    (hp : parsesRelative url = false) (ha : ∀ b ∈ url, b.val < 128) :
    redirectLocation oldpath url = url := by
  unfold redirectLocation
  simp only [hp, Bool.false_eq_true, if_false]
  exact hexEscapeNonASCII_ascii url ha

theorem parsesRelative_http (rest : GoString) :
    parsesRelative (lit "http://" ++ rest) = false := by
  have hcut : (cutByte 35 (lit "http://" ++ rest)).1
      = lit "http://" ++ (cutByte 35 rest).1 := rfl
  unfold parsesRelative
  simp only [hcut]
  split
  · rfl
  · rfl

theorem parsesRelative_https (rest : GoString) :
    parsesRelative (lit "https://" ++ rest) = false := by
  have hcut : (cutByte 35 (lit "https://" ++ rest)).1
      = lit "https://" ++ (cutByte 35 rest).1 := rfl
  unfold parsesRelative
  simp only [hcut]
  split
  · rfl
  · rfl

theorem resolve_after_create (s : Store) (u id : GoString) (g : Request)
    (hid : id ≠ []) (hget : s.get id = some u)
    (hg : g.Method = MethodGet) (hp : g.Path = lit "/s/" ++ id) :
    (redirectHandler s g).2 = .redirect u StatusMovedPermanently ∧
    (redirectHandler s g).2.location g = some (redirectLocation g.Path u) ∧
    (parsesRelative u = false → (∀ b ∈ u, b.val < 128) →
      (redirectHandler s g).2.location g = some u) ∧
    ((∃ rest, u = lit "http://" ++ rest ∨ u = lit "https://" ++ rest) →
      (∀ b ∈ u, b.val < 128) → (redirectHandler s g).2.location g = some u) := by
  have h1 : (redirectHandler s g).2 = .redirect u StatusMovedPermanently := by
    rw [redirectHandler_resolve s g id hg hp]
    simp [hid, hget]
  have h2 : (redirectHandler s g).2.location g = some (redirectLocation g.Path u) := by
    rw [h1]; rfl
  refine ⟨h1, h2, ?_, ?_⟩
  · intro hrel ha
    rw [h2, redirectLocation_of_not_relative _ u hrel ha]
  · rintro ⟨rest, hu | hu⟩ ha
    · rw [h2, redirectLocation_of_not_relative _ u (by rw [hu]; exact parsesRelative_http rest) ha]
    · rw [h2, redirectLocation_of_not_relative _ u (by rw [hu]; exact parsesRelative_https rest) ha]

/-- C1 fails. On the fresh store, a create request for the non-empty target
`example.com/page` whose six draws are all 0 returns `aaaaaa`; the GET of
`/s/aaaaaa` that follows makes `redirectHandler` call `http.Redirect` with that
target, and the `Location` header that `http.Redirect` sets is
`/s/example.com/page`, not the target. -/
theorem create_resolve_location_differs :
    lit "example.com/page" ≠ [] ∧
    (shortenHandler urlStore (jsonRequest (lit "example.com/page"))
      (fun _ => 0)).2.issued = some (lit "aaaaaa") ∧
    (redirectHandler
      (shortenHandler urlStore (jsonRequest (lit "example.com/page")) (fun _ => 0)).1
      (getRequest (lit "/s/aaaaaa"))).2
        = .redirect (lit "example.com/page") StatusMovedPermanently ∧
    (redirectHandler
      (shortenHandler urlStore (jsonRequest (lit "example.com/page")) (fun _ => 0)).1
      (getRequest (lit "/s/aaaaaa"))).2.location (getRequest (lit "/s/aaaaaa"))
        = some (lit "/s/example.com/page") ∧
    lit "/s/example.com/page" ≠ lit "example.com/page" := by
  refine ⟨by decide, by decide, by decide, by decide, by decide⟩

/-- C1 as amended. For every store, every non-empty target `u` and every
outcome of the draws, a create request with target `u` (JSON body of
`shortenHandler`, or form value of `shortenFormHandler`) hands back an
identifier `id`, and a GET of `"/s/" + id` served right after by
`redirectHandler` calls `http.Redirect` with exactly `u` and status 301. The
`Location` header that `http.Redirect` sets is what it derives from `u`; it is
exactly `u` when `u` has only ASCII bytes and `http.Redirect` does not take it
for a relative reference, in particular when it starts with `http://` or
`https://`. -/
theorem create_resolve_roundtrip (s : Store) (u : GoString) (rnd : Nat → Nat)
    (c : Request) (hu : u ≠ []) (hr : ∀ i, rnd i < 62)
    (hc : c.Method = MethodPost) :
    ∀ out : Store × Response,
      (c.Body = some ⟨u⟩ ∧ out = shortenHandler s c rnd) ∨
        (c.FormValue (lit "url") = u ∧ out = shortenFormHandler s c rnd) →
      ∃ id, out.2.issued = some id ∧
        ∀ g : Request, g.Method = MethodGet → g.Path = lit "/s/" ++ id →
          (redirectHandler out.1 g).2 = .redirect u StatusMovedPermanently ∧
          (redirectHandler out.1 g).2.location g
            = some (redirectLocation g.Path u) ∧
          (parsesRelative u = false → (∀ b ∈ u, b.val < 128) →
            (redirectHandler out.1 g).2.location g = some u) ∧
          ((∃ rest, u = lit "http://" ++ rest ∨ u = lit "https://" ++ rest) →
            (∀ b ∈ u, b.val < 128) →
            (redirectHandler out.1 g).2.location g = some u) := by
  have hr6 : ∀ i, i < 6 → rnd i < 62 := fun i _ => hr i
  rintro out (⟨hb, rfl⟩ | ⟨hb, rfl⟩)
  · refine ⟨idOf rnd 6, ?_, ?_⟩
    · rw [shortenHandler_create s c rnd u hc hb hu hr6]; rfl
    · intro g hg hp
      rw [shortenHandler_create s c rnd u hc hb hu hr6]
      exact resolve_after_create _ u _ g (idOf_ne_nil rnd) (Store.get_set_self s _ u) hg hp
  · refine ⟨idOf rnd 6, ?_, ?_⟩
    · rw [shortenFormHandler_create s c rnd u hc hb hu hr6]
      exact issued_resultPage _ _ _
    · intro g hg hp
      rw [shortenFormHandler_create s c rnd u hc hb hu hr6]
      exact resolve_after_create _ u _ g (idOf_ne_nil rnd) (Store.get_set_self s _ u) hg hp

/-- The amended C1 at a concrete request: target `https://example.com/page`,
draws `0, 1, 2, ...`, on a store that already holds one mapping. -/
theorem create_resolve_roundtrip_witness :
    (lit "https://example.com/page" ≠ [] ∧ (∀ i : Nat, i % 62 < 62) ∧
      (jsonRequest (lit "https://example.com/page")).Method = MethodPost) ∧
    ∃ id, (shortenHandler [(lit "abcdef", lit "x")]
        (jsonRequest (lit "https://example.com/page")) (fun i => i % 62)).2.issued
          = some id ∧
      ∀ g : Request, g.Method = MethodGet → g.Path = lit "/s/" ++ id →
        (redirectHandler (shortenHandler [(lit "abcdef", lit "x")]
            (jsonRequest (lit "https://example.com/page")) (fun i => i % 62)).1 g).2
          = .redirect (lit "https://example.com/page") StatusMovedPermanently ∧
        (redirectHandler (shortenHandler [(lit "abcdef", lit "x")]
            (jsonRequest (lit "https://example.com/page"))
              (fun i => i % 62)).1 g).2.location g
          = some (lit "https://example.com/page") :=
  ⟨⟨by decide, fun i => Nat.mod_lt i (by decide), rfl⟩,
    (create_resolve_roundtrip [(lit "abcdef", lit "x")]
      (lit "https://example.com/page") (fun i => i % 62)
      (jsonRequest (lit "https://example.com/page"))
      (by decide) (fun i => Nat.mod_lt i (by decide)) rfl _ (Or.inl ⟨rfl, rfl⟩)).imp
      (fun _ h => ⟨h.1, fun g hg hp =>
        ⟨(h.2 g hg hp).1, (h.2 g hg hp).2.2.2 ⟨_, Or.inr rfl⟩
          (fun b hb => of_decide_eq_true (List.all_eq_true.1
            (by decide : (lit "https://example.com/page").all
              (fun b => decide (b.val < 128)) = true) b hb))⟩⟩)⟩

/-! ## Identifier shape -/

/-- C2 fails for a length above the allocation limit: with every draw in
`0..61`, `generateShortID(1 << 62)` panics in `make` and returns no string,
although the length is a non-negative `int`. -/
theorem generateShortID_above_limit :
    (0 : Int) ≤ 2 ^ 62 ∧ (2 : Int) ^ 62 < 2 ^ 63 ∧
    generateShortID (2 ^ 62) (fun _ => 0) = none ∧
    ¬ (∀ (n : Nat) (rnd : Nat → Nat), (∀ i, rnd i < 62) →
        ∃ id, generateShortID (n : Int) rnd = some id ∧ id.length = n) := by
  have hnone : generateShortID (2 ^ 62) (fun _ => 0) = none := by
    unfold generateShortID
    rw [if_pos (Or.inr (by decide))]
  refine ⟨by decide, by decide, hnone, ?_⟩
  intro hall
  obtain ⟨id, hid, _⟩ := hall (2 ^ 62) (fun _ => 0) (fun _ => (by decide : 0 < 62))
  have e : ((2 ^ 62 : Nat) : Int) = 2 ^ 62 := by norm_num
  rw [e, hnone] at hid
  cases hid

/-- C2 as amended. When every draw is in `0..61`, `generateShortID(n)` returns
(the charset index is in bounds at every step) a string of length `n` whose
characters are all in `[a-zA-Z0-9]`, for every `n` from 0 up to the allocation
limit `maxAlloc`; and the identifier handed back by a create request, which is
`generateShortID(6)`, has length 6 and only such characters. -/
theorem generateShortID_shape (rnd : Nat → Nat) (hr : ∀ i, rnd i < 62) :
    (∀ i, rnd i < charset.length) ∧
    (∀ n : Nat, (n : Int) ≤ maxAlloc →
      ∃ id, generateShortID (n : Int) rnd = some id ∧ id.length = n ∧
        ∀ c ∈ id, isAlnum c) ∧
    (∀ (s : Store) (r : Request) (id : GoString),
      (shortenHandler s r rnd).2.issued = some id ∨
        (shortenFormHandler s r rnd).2.issued = some id →
      generateShortID 6 rnd = some id ∧ id.length = 6 ∧ ∀ c ∈ id, isAlnum c) := by
  have hg : generateShortID 6 rnd = some (idOf rnd 6) :=
    generateShortID_six rnd (fun i _ => hr i)
  refine ⟨fun i => by rw [charset_length]; exact hr i, ?_, ?_⟩
  · intro n hn
    exact ⟨idOf rnd n, generateShortID_eq n rnd hn (fun i _ => hr i), idOf_length rnd n,
      idOf_alnum rnd n (fun i _ => hr i)⟩
  · intro s r id h
    have hid : id = idOf rnd 6 := by
      rcases h with h | h
      · unfold shortenHandler at h
        rw [hg] at h
        split at h
        · simp [Response.issued] at h
        · split at h
          · simp [Response.issued] at h
          · split at h
            · simp [Response.issued] at h
            · simpa [Response.issued] using h.symm
      · unfold shortenFormHandler at h
        rw [hg] at h
        split at h
        · simp [Response.issued] at h
        · simp only at h
          split at h
          · simp [Response.issued] at h
          · rw [issued_resultPage] at h
            simpa using h.symm
    subst hid
    exact ⟨hg, idOf_length rnd 6, idOf_alnum rnd 6 (fun i _ => hr i)⟩

/-- The amended C2 with the draws `0, 7, 14, ...` taken modulo 62 and the
length 40. -/
theorem generateShortID_shape_witness :
    (∀ i : Nat, (7 * i) % 62 < 62) ∧ ((40 : Nat) : Int) ≤ maxAlloc ∧
    ∃ id, generateShortID ((40 : Nat) : Int) (fun i => (7 * i) % 62) = some id ∧
      id.length = 40 ∧ ∀ c ∈ id, isAlnum c :=
  ⟨fun i => Nat.mod_lt _ (by decide), by decide,
    (generateShortID_shape (fun i => (7 * i) % 62)
      (fun i => Nat.mod_lt _ (by decide))).2.1 40 (by decide)⟩

/-! ## Unknown lookup -/

/-- C3. For every store and every identifier `id`, a GET of `"/s/" + id` is
answered by `redirectHandler` with status 404 whenever `id` is empty or has no
mapping in the store, and then no redirect is performed; conversely a request
for that path is answered with 404 only when `id` is empty or unmapped; and on
the fresh store a GET of any identifier is answered with 404. -/
theorem redirectHandler_notFound (s : Store) (id : GoString) (g : Request)
    (hp : g.Path = lit "/s/" ++ id) :
    (g.Method = MethodGet → (id = [] ∨ s.get id = none) →
      ∃ msg, (redirectHandler s g).2 = .error msg StatusNotFound) ∧
    ((∃ msg, (redirectHandler s g).2 = .error msg StatusNotFound) →
      id = [] ∨ s.get id = none) ∧
    ((id = [] ∨ s.get id = none) →
      ∀ u code, (redirectHandler s g).2 ≠ .redirect u code) ∧
    (g.Method = MethodGet →
      ∃ msg, (redirectHandler urlStore g).2 = .error msg StatusNotFound) := by
  have key : ∀ t : Store, g.Method = MethodGet → ((id = [] ∨ t.get id = none) ↔
      ∃ msg, (redirectHandler t g).2 = .error msg StatusNotFound) := by
    intro t hg
    rw [redirectHandler_resolve t g id hg hp]
    by_cases h : id = []
    · simp [h]
    · cases hget : t.get id <;> simp [h]
  have other : g.Method ≠ MethodGet → (redirectHandler s g).2
      = .error (lit "Method not allowed") StatusMethodNotAllowed := by
    intro hg
    simp [redirectHandler, hg]
  refine ⟨fun hg => (key s hg).1, ?_, ?_, ?_⟩
  · rintro ⟨msg, hmsg⟩
    by_cases hg : g.Method = MethodGet
    · exact (key s hg).2 ⟨msg, hmsg⟩
    · rw [other hg] at hmsg
      have hc : StatusMethodNotAllowed = StatusNotFound := by
        injection hmsg
      exact absurd hc (by decide)
  · intro h u code heq
    by_cases hg : g.Method = MethodGet
    · obtain ⟨msg, hmsg⟩ := (key s hg).1 h
      rw [hmsg] at heq
      cases heq
    · rw [other hg] at heq
      cases heq
  · intro hg
    exact (key urlStore hg).1 (Or.inr (by cases id <;> rfl))

/-- C3 for the identifier `zzzzzz` on a store that only maps `abcdef`. -/
theorem redirectHandler_notFound_witness :
    (getRequest (lit "/s/zzzzzz")).Path = lit "/s/" ++ lit "zzzzzz" ∧
    ((getRequest (lit "/s/zzzzzz")).Method = MethodGet →
      (lit "zzzzzz" = [] ∨
        Store.get [(lit "abcdef", lit "https://example.com/page")] (lit "zzzzzz") = none) →
      ∃ msg, (redirectHandler [(lit "abcdef", lit "https://example.com/page")]
        (getRequest (lit "/s/zzzzzz"))).2 = .error msg StatusNotFound) :=
  ⟨by decide,
    (redirectHandler_notFound [(lit "abcdef", lit "https://example.com/page")]
      (lit "zzzzzz") (getRequest (lit "/s/zzzzzz")) (by decide)).1⟩

/-! ## Resolve is read-only -/

/-- C6. For every store and every request (any method, any path, found or not),
the store after `redirectHandler` is the store before it. -/
theorem redirectHandler_readonly (s : Store) (r : Request) :
    (redirectHandler s r).1 = s :=
  redirectHandler_fst s r

/-! ## Empty target -/

/-- C7. For every store, a create request with the empty target hands back no
identifier and leaves the store unchanged: `shortenHandler` answers
400 "URL is required", `shortenFormHandler` redirects to "/" with 303. A create
request with any non-empty target is accepted, whatever its bytes are: the
target is stored under the generated identifier and the success answer is
written. -/
theorem create_rejects_only_empty (s : Store) (r : Request) (rnd : Nat → Nat)
    (hm : r.Method = MethodPost) (hr : ∀ i, rnd i < 62) :
    (r.Body = some ⟨[]⟩ →
      shortenHandler s r rnd
        = (s, .error (lit "URL is required") StatusBadRequest) ∧
      (shortenHandler s r rnd).2.issued = none) ∧
    (r.FormValue (lit "url") = [] →
      shortenFormHandler s r rnd = (s, .redirect (lit "/") StatusSeeOther) ∧
      (shortenFormHandler s r rnd).2.issued = none) ∧
    (∀ u : GoString, u ≠ [] → r.Body = some ⟨u⟩ →
      ∃ id, generateShortID 6 rnd = some id ∧
        shortenHandler s r rnd
          = (s.set id u, .json ⟨id, u, baseURL ++ lit "s/" ++ id⟩)) ∧
    (∀ u : GoString, u ≠ [] → r.FormValue (lit "url") = u →
      ∃ id, generateShortID 6 rnd = some id ∧
        shortenFormHandler s r rnd
          = (s.set id u, .resultPage u (baseURL ++ lit "s/" ++ id)
              (baseURL ++ lit "s/" ++ id))) := by
  have hr6 : ∀ i, i < 6 → rnd i < 62 := fun i _ => hr i
  have hg : generateShortID 6 rnd = some (idOf rnd 6) := generateShortID_six rnd hr6
  refine ⟨?_, ?_, ?_, ?_⟩
  · intro hb
    have h : shortenHandler s r rnd
        = (s, .error (lit "URL is required") StatusBadRequest) := by
      simp [shortenHandler, hm, hb, lit_empty]
    exact ⟨h, by rw [h]; rfl⟩
  · intro hb
    have h : shortenFormHandler s r rnd = (s, .redirect (lit "/") StatusSeeOther) := by
      simp [shortenFormHandler, hm, hb, lit_empty]
    exact ⟨h, by rw [h]; rfl⟩
  · intro u hu hb
    exact ⟨idOf rnd 6, hg, shortenHandler_create s r rnd u hm hb hu hr6⟩
  · intro u hu hb
    exact ⟨idOf rnd 6, hg, shortenFormHandler_create s r rnd u hm hb hu hr6⟩

/-- C7 for a JSON create request with the empty target on a store that holds
one mapping. -/
theorem create_rejects_only_empty_witness :
    ((jsonRequest []).Method = MethodPost ∧ (∀ i : Nat, i % 62 < 62)) ∧
    ((jsonRequest []).Body = some ⟨[]⟩ →
      shortenHandler [(lit "abcdef", lit "x")] (jsonRequest []) (fun i => i % 62)
        = ([(lit "abcdef", lit "x")],
            .error (lit "URL is required") StatusBadRequest) ∧
      (shortenHandler [(lit "abcdef", lit "x")] (jsonRequest [])
        (fun i => i % 62)).2.issued = none) :=
  ⟨⟨rfl, fun i => Nat.mod_lt i (by decide)⟩,
    (create_rejects_only_empty [(lit "abcdef", lit "x")] (jsonRequest [])
      (fun i => i % 62) rfl (fun i => Nat.mod_lt i (by decide))).1⟩

/-! ## Positional identifier extraction -/

/-- C10. For every GET request whose path has at least 3 bytes,
`redirectHandler` resolves the path with its first three bytes removed, whatever
those bytes are: the answer is determined by that suffix alone, so two such
paths with the same suffix (such as "/s/abc" and "/x/abc", both resolving
"abc") get the same answer. For every path that starts with "/s/" the slice is
in bounds and the handler does not panic. -/
theorem redirectHandler_positional (s : Store) (g : Request)
    (hg : g.Method = MethodGet) (hp : 3 ≤ g.Path.length) :
    redirectHandler s g
      = (s, if g.Path.drop 3 = [] then .error (lit "Not found") StatusNotFound
            else match s.get (g.Path.drop 3) with
              | none => .error (lit "Short URL not found") StatusNotFound
              | some u => .redirect u StatusMovedPermanently) ∧
    (∀ g' : Request, g'.Method = MethodGet → 3 ≤ g'.Path.length →
      g'.Path.drop 3 = g.Path.drop 3 → redirectHandler s g' = redirectHandler s g) ∧
    (redirectHandler s (getRequest (lit "/s/abc"))
        = redirectHandler s (getRequest (lit "/x/abc")) ∧
      (lit "/s/abc").drop 3 = lit "abc" ∧ (lit "/x/abc").drop 3 = lit "abc") ∧
    (∀ (r : Request) (x : GoString), r.Path = lit "/s/" ++ x →
      (lit "/s/").length ≤ r.Path.length ∧ r.Path.drop (lit "/s/").length = x ∧
      (redirectHandler s r).2 ≠ .panicked) := by
  refine ⟨redirectHandler_get s g hg hp, ?_, ⟨?_, by decide, by decide⟩, ?_⟩
  · intro g' hg' hp' hd
    rw [redirectHandler_get s g hg hp, redirectHandler_get s g' hg' hp', hd]
  · rw [redirectHandler_get s (getRequest (lit "/s/abc")) rfl (by decide),
      redirectHandler_get s (getRequest (lit "/x/abc")) rfl (by decide)]
    rfl
  · intro r x hx
    have hl : ¬ r.Path.length < (lit "/s/").length := by rw [hx]; simp
    refine ⟨by rw [hx]; simp, by rw [hx]; simp, ?_⟩
    unfold redirectHandler
    simp only [if_neg hl]
    split
    · simp
    · split
      · simp
      · split <;> simp

/-- C10 for the path "/x/abc" on a store that maps "abc". -/
theorem redirectHandler_positional_witness :
    ((getRequest (lit "/x/abc")).Method = MethodGet ∧
      3 ≤ (getRequest (lit "/x/abc")).Path.length) ∧
    redirectHandler [(lit "abc", lit "https://example.com/page")]
        (getRequest (lit "/x/abc"))
      = ([(lit "abc", lit "https://example.com/page")],
          if (getRequest (lit "/x/abc")).Path.drop 3 = []
          then .error (lit "Not found") StatusNotFound
          else match Store.get [(lit "abc", lit "https://example.com/page")]
              ((getRequest (lit "/x/abc")).Path.drop 3) with
            | none => .error (lit "Short URL not found") StatusNotFound
            | some u => .redirect u StatusMovedPermanently) :=
  ⟨⟨rfl, by decide⟩,
    (redirectHandler_positional [(lit "abc", lit "https://example.com/page")]
      (getRequest (lit "/x/abc")) rfl (by decide)).1⟩

/-! ## Mappings are never deleted -/

theorem serve_cases (h : Handler) (s : Store) (r : Request) (rnd : Nat → Nat) :
    (serve h s r rnd).1 = s ∨
    ∃ id u, (serve h s r rnd).1 = s.set id u ∧ (serve h s r rnd).2.issued = some id := by
  cases h with
  | home =>
    left
    simp only [serve, homeHandler]
    split <;> rfl
  | redirect => exact Or.inl (redirectHandler_fst s r)
  | shorten =>
    simp only [serve, shortenHandler]
    split
    · exact Or.inl rfl
    · split
      · exact Or.inl rfl
      · split
        · exact Or.inl rfl
        · split
          · exact Or.inl rfl
          · exact Or.inr ⟨_, _, rfl, rfl⟩
  | shortenForm =>
    simp only [serve, shortenFormHandler]
    split
    · exact Or.inl rfl
    · split
      · exact Or.inl rfl
      · split
        · exact Or.inl rfl
        · exact Or.inr ⟨_, _, rfl, issued_resultPage _ _ _⟩

/-- C8. For every store and every request served by any of the four handlers,
every identifier mapped before the request is still mapped after it, and an
identifier whose lookup differs between the two stores is the identifier the
answer hands back: the stores differ in at most that one identifier. -/
theorem serve_preserves_mappings (h : Handler) (s : Store) (r : Request)
    (rnd : Nat → Nat) :
    (∀ k, (s.get k).isSome → ((serve h s r rnd).1.get k).isSome) ∧
    (∀ k, (serve h s r rnd).1.get k ≠ s.get k →
      (serve h s r rnd).2.issued = some k) := by
  rcases serve_cases h s r rnd with hs | ⟨id, u, hs, hi⟩
  · rw [hs]
    exact ⟨fun _ hk => hk, fun k hk => absurd rfl hk⟩
  · rw [hs, hi]
    constructor
    · intro k hk
      by_cases e : k = id
      · rw [e, Store.get_set_self]; rfl
      · rw [Store.get_set_of_ne s id u k e]; exact hk
    · intro k hk
      by_cases e : k = id
      · rw [e]
      · exact absurd (Store.get_set_of_ne s id u k e) hk

/-! ## No collision check on the create path -/

/-- C4 fails. On the fresh store, a create request for `https://a.example`
whose six draws are all 0 issues `aaaaaa`; the resulting store is reachable;
a second create request for `https://b.example` with the same draws issues
`aaaaaa` again, although it is mapped, and replaces its target, so `aaaaaa` no
longer resolves to the first target. -/
theorem create_reissues_mapped_identifier :
    Reachable (shortenHandler urlStore (jsonRequest (lit "https://a.example"))
      (fun _ => 0)).1 ∧
    (shortenHandler urlStore (jsonRequest (lit "https://a.example"))
      (fun _ => 0)).2.issued = some (lit "aaaaaa") ∧
    Store.get (shortenHandler urlStore (jsonRequest (lit "https://a.example"))
      (fun _ => 0)).1 (lit "aaaaaa") = some (lit "https://a.example") ∧
    (shortenHandler
      (shortenHandler urlStore (jsonRequest (lit "https://a.example")) (fun _ => 0)).1
      (jsonRequest (lit "https://b.example")) (fun _ => 0)).2.issued
        = some (lit "aaaaaa") ∧
    (redirectHandler
      (shortenHandler
        (shortenHandler urlStore (jsonRequest (lit "https://a.example")) (fun _ => 0)).1
        (jsonRequest (lit "https://b.example")) (fun _ => 0)).1
      (getRequest (lit "/s/aaaaaa"))).2
        = .redirect (lit "https://b.example") StatusMovedPermanently ∧
    ¬ (∀ (s : Store) (r : Request) (rnd : Nat → Nat) (id : GoString),
        Reachable s → (∀ i, rnd i < 62) →
        (shortenHandler s r rnd).2.issued = some id → s.get id = none) := by
  have hreach : Reachable (shortenHandler urlStore
      (jsonRequest (lit "https://a.example")) (fun _ => 0)).1 :=
    Reachable.step .shorten (jsonRequest (lit "https://a.example")) (fun _ => 0)
      Reachable.init (fun _ => (by decide : 0 < charset.length))
  refine ⟨hreach, by decide, by decide, by decide, by decide, ?_⟩
  intro hall
  have := hall _ (jsonRequest (lit "https://b.example")) (fun _ => 0) (lit "aaaaaa")
    hreach (fun _ => (by decide : 0 < 62)) (by decide)
  revert this
  decide

/-- C4 as amended. The create path writes the target under the identifier the
draws select, without consulting the store: the identifier resolves to the new
target afterwards and every other identifier keeps its lookup. So when the
issued identifier was not mapped, no existing mapping is overwritten and every
mapped identifier keeps its target; when it was mapped, its target is
replaced. -/
theorem create_writes_only_issued (s : Store) (r : Request) (rnd : Nat → Nat)
    (u : GoString) (hm : r.Method = MethodPost) (hu : u ≠ [])
    (hr : ∀ i, rnd i < 62) :
    ∃ id, generateShortID 6 rnd = some id ∧
      ∀ out : Store × Response,
        (r.Body = some ⟨u⟩ ∧ out = shortenHandler s r rnd) ∨
          (r.FormValue (lit "url") = u ∧ out = shortenFormHandler s r rnd) →
        out.2.issued = some id ∧
        out.1.get id = some u ∧
        (∀ k, k ≠ id → out.1.get k = s.get k) ∧
        (s.get id = none → ∀ k v, s.get k = some v → out.1.get k = some v) := by
  have hr6 : ∀ i, i < 6 → rnd i < 62 := fun i _ => hr i
  refine ⟨idOf rnd 6, generateShortID_six rnd hr6, ?_⟩
  have main : ∀ resp : Response, resp.issued = some (idOf rnd 6) →
      ((s.set (idOf rnd 6) u, resp) : Store × Response).2.issued = some (idOf rnd 6) ∧
      Store.get (s.set (idOf rnd 6) u, resp).1 (idOf rnd 6) = some u ∧
      (∀ k, k ≠ idOf rnd 6 → Store.get (s.set (idOf rnd 6) u, resp).1 k = s.get k) ∧
      (s.get (idOf rnd 6) = none → ∀ k v, s.get k = some v →
        Store.get (s.set (idOf rnd 6) u, resp).1 k = some v) := by
    intro resp hresp
    refine ⟨hresp, Store.get_set_self s _ u, fun k hk => Store.get_set_of_ne s _ u k hk, ?_⟩
    intro hnone k v hk
    have hne : k ≠ idOf rnd 6 := by
      intro e
      rw [e, hnone] at hk
      cases hk
    show Store.get (s.set (idOf rnd 6) u) k = some v
    rw [Store.get_set_of_ne s _ u k hne, hk]
  rintro out (⟨hb, rfl⟩ | ⟨hb, rfl⟩)
  · rw [shortenHandler_create s r rnd u hm hb hu hr6]
    exact main _ rfl
  · rw [shortenFormHandler_create s r rnd u hm hb hu hr6]
    exact main _ (issued_resultPage _ _ _)

/-- The amended C4 for a second create with fresh draws on the store left by a
first create. -/
theorem create_writes_only_issued_witness :
    ((jsonRequest (lit "https://b.example")).Method = MethodPost ∧
      lit "https://b.example" ≠ [] ∧ (∀ i : Nat, (i + 1) % 62 < 62)) ∧
    ∃ id, generateShortID 6 (fun i => (i + 1) % 62) = some id ∧
      ∀ out : Store × Response,
        ((jsonRequest (lit "https://b.example")).Body = some ⟨lit "https://b.example"⟩ ∧
            out = shortenHandler [(lit "aaaaaa", lit "https://a.example")]
              (jsonRequest (lit "https://b.example")) (fun i => (i + 1) % 62)) ∨
          ((jsonRequest (lit "https://b.example")).FormValue (lit "url")
              = lit "https://b.example" ∧
            out = shortenFormHandler [(lit "aaaaaa", lit "https://a.example")]
              (jsonRequest (lit "https://b.example")) (fun i => (i + 1) % 62)) →
        out.2.issued = some id ∧
        out.1.get id = some (lit "https://b.example") ∧
        (∀ k, k ≠ id →
          out.1.get k = Store.get [(lit "aaaaaa", lit "https://a.example")] k) ∧
        (Store.get [(lit "aaaaaa", lit "https://a.example")] id = none → ∀ k v,
          Store.get [(lit "aaaaaa", lit "https://a.example")] k = some v →
          out.1.get k = some v) :=
  ⟨⟨rfl, by decide, fun i => Nat.mod_lt _ (by decide)⟩,
    create_writes_only_issued [(lit "aaaaaa", lit "https://a.example")]
      (jsonRequest (lit "https://b.example")) (fun i => (i + 1) % 62)
      (lit "https://b.example") rfl (by decide) (fun i => Nat.mod_lt _ (by decide))⟩

/-! ## The identifier space -/

theorem idOf_getElem? (rnd : Nat → Nat) (n i : Nat) (hi : i < n) :
    (idOf rnd n)[i]? = some (charset.getD (rnd i) 0) := by
  simp [idOf, List.getElem?_map, List.getElem?_range hi]

theorem idOf_injective (r r' : Nat → Nat) (n : Nat)
    (hr : ∀ i, i < n → r i < 62) (hr' : ∀ i, i < n → r' i < 62)
    (h : idOf r n = idOf r' n) : ∀ i, i < n → r i = r' i := by
  intro i hi
  have h1 := idOf_getElem? r n i hi
  rw [h, idOf_getElem? r' n i hi] at h1
  have hlt : r i < charset.length := by rw [charset_length]; exact hr i hi
  have hlt' : r' i < charset.length := by rw [charset_length]; exact hr' i hi
  rw [List.getD_eq_getElem _ _ hlt, List.getD_eq_getElem _ _ hlt'] at h1
  exact ((charset_nodup.getElem_inj_iff).1 (Option.some.inj h1)).symm

theorem drawsFor_lt (s : GoString) (hs : ∀ c ∈ s, isAlnum c) :
    ∀ i, drawsFor s i < 62 := by
  intro i
  unfold drawsFor
  split
  · rename_i hi
    rw [← charset_length, List.indexOf_lt_length, List.getD_eq_getElem _ _ hi]
    exact alnum_mem_charset _ (hs _ (List.getElem_mem hi))
  · decide

theorem idOf_drawsFor (s : GoString) (hs : ∀ c ∈ s, isAlnum c) :
    idOf (drawsFor s) s.length = s := by
  apply List.ext_getElem?
  intro i
  by_cases hi : i < s.length
  · rw [idOf_getElem? _ _ _ hi, List.getElem?_eq_getElem hi]
    have hm : s[i] ∈ charset := alnum_mem_charset _ (hs _ (List.getElem_mem hi))
    have hlt : charset.indexOf s[i] < charset.length := List.indexOf_lt_length.2 hm
    simp only [drawsFor, hi, if_true, List.getD_eq_getElem _ _ hi]
    rw [List.getD_eq_getElem _ _ hlt, List.getElem_indexOf hlt]
  · have h1 : (idOf (drawsFor s) s.length).length ≤ i := by
      rw [idOf_length]; omega
    rw [List.getElem?_eq_none h1, List.getElem?_eq_none (by omega)]

theorem drawsOf_lt (d : Fin 6 → Fin 62) : ∀ i, drawsOf d i < 62 := by
  intro i
  unfold drawsOf
  split
  · exact (d _).isLt
  · decide

theorem idOf_drawsOf_injective :
    Function.Injective (fun d : Fin 6 → Fin 62 => idOf (drawsOf d) 6) := by
  intro d d' h
  funext i
  have := idOf_injective (drawsOf d) (drawsOf d') 6 (fun i _ => drawsOf_lt d i)
    (fun i _ => drawsOf_lt d' i) h i.val i.isLt
  simp only [drawsOf, i.isLt, dif_pos] at this
  exact Fin.ext this

theorem identifiers_eq_range :
    {s : GoString | ∃ rnd : Nat → Nat, (∀ i, rnd i < 62) ∧
        generateShortID 6 rnd = some s}
      = Set.range (fun d : Fin 6 → Fin 62 => idOf (drawsOf d) 6) := by
  ext s
  simp only [Set.mem_setOf_eq, Set.mem_range]
  constructor
  · rintro ⟨rnd, hr, hg⟩
    have hg' := generateShortID_six rnd (fun i _ => hr i)
    have hs : idOf rnd 6 = s := by
      rw [hg'] at hg
      exact Option.some.inj hg
    refine ⟨fun i => ⟨rnd i.val, hr i.val⟩, ?_⟩
    rw [← hs]
    simp only [idOf]
    apply List.map_congr_left
    intro i hi
    have hi6 : i < 6 := List.mem_range.1 hi
    simp [drawsOf, hi6]
  · rintro ⟨d, rfl⟩
    exact ⟨drawsOf d, drawsOf_lt d, generateShortID_six _ (fun i _ => drawsOf_lt d i)⟩

/-- C9. The alphabet of `generateShortID` has exactly 62 pairwise distinct
characters: 26 lowercase letters, 26 uppercase letters and 10 digits. As a
function of its six draws in `0..61`, `generateShortID(6)` is a bijection onto
the strings of length 6 over `[a-zA-Z0-9]`: equal identifiers come from equal
draws, every draw sequence gives such a string, every such string is given by
some draw sequence, and the identifiers are `62^6 = 56800235584` in number. -/
theorem generateShortID_bijection :
    (charset.length = 62 ∧ charset.Nodup ∧
      charset.countP (fun b => decide (97 ≤ b.val ∧ b.val ≤ 122)) = 26 ∧
      charset.countP (fun b => decide (65 ≤ b.val ∧ b.val ≤ 90)) = 26 ∧
      charset.countP (fun b => decide (48 ≤ b.val ∧ b.val ≤ 57)) = 10) ∧
    (∀ r r' : Nat → Nat, (∀ i, i < 6 → r i < 62) → (∀ i, i < 6 → r' i < 62) →
      generateShortID 6 r = generateShortID 6 r' → ∀ i, i < 6 → r i = r' i) ∧
    (∀ r : Nat → Nat, (∀ i, i < 6 → r i < 62) →
      ∃ s, generateShortID 6 r = some s ∧ s.length = 6 ∧ ∀ c ∈ s, isAlnum c) ∧
    (∀ s : GoString, s.length = 6 → (∀ c ∈ s, isAlnum c) →
      ∃ r : Nat → Nat, (∀ i, r i < 62) ∧ generateShortID 6 r = some s) ∧
    Set.ncard {s : GoString | ∃ rnd : Nat → Nat, (∀ i, rnd i < 62) ∧
        generateShortID 6 rnd = some s} = 62 ^ 6 ∧
    62 ^ 6 = 56800235584 := by
  refine ⟨⟨charset_length, charset_nodup, by decide, by decide, by decide⟩,
    ?_, ?_, ?_, ?_, by norm_num⟩
  · intro r r' hr hr' h
    rw [generateShortID_six r hr, generateShortID_six r' hr'] at h
    exact idOf_injective r r' 6 hr hr' (Option.some.inj h)
  · intro r hr
    exact ⟨idOf r 6, generateShortID_six r hr, idOf_length r 6, idOf_alnum r 6 hr⟩
  · intro s hl hs
    refine ⟨drawsFor s, drawsFor_lt s hs, ?_⟩
    have key := generateShortID_six (drawsFor s) (fun i _ => drawsFor_lt s hs i)
    have e := idOf_drawsFor s hs
    rw [hl] at e
    rw [e] at key
    exact key
  · rw [identifiers_eq_range, ← Set.image_univ,
      Set.ncard_image_of_injective _ idOf_drawsOf_injective, Set.ncard_univ,
      Nat.card_eq_fintype_card, Fintype.card_fun, Fintype.card_fin, Fintype.card_fin]

end LinkShortner
